import Mathlib

/-!
Verification of pyantidote (innateessence/pyantidote) against its
natural-language specification.

The development shallow-embeds the relevant parts of
`src/pyantidote/antidote.py` as Lean definitions:

* `DB.add` / `DB.existsVal` model the SQLite-backed set-membership store
  (tables with a UNIQUE column; duplicate inserts raise `IntegrityError`,
  which `DB.add` catches and ignores). A table is modelled as the list of
  values in insertion order.
* `readChunks` / `get_md5` model `FileScanner.get_md5`'s 4096-byte chunked
  hashing loop; the MD5 digest itself is an opaque pure function of the
  accumulated bytes.
* `is_binary` models the null-byte probe, including its error behaviour
  (`PermissionError` caught, `FileNotFoundError` propagated).
* `compare_against_database` and `scanModel` model the per-file pipeline
  and the sequential effect of `FileScanner.scan`'s dispatch loop.
* `admissionOk` / `Reach` / `scanLoop` model the busy-wait thread admission
  gate (`threading.active_count() < max_threads`).
* `notify` / `notifyRun` model `NetworkScanner.notify`'s alert
  de-duplication, and `statusFilter` the connection-status condition of
  `NetworkScanner.scan`.

Bytes are modelled as `Nat` (the null byte is `0`), file contents as
`List Nat`, and a file access as either content or an I/O error.
-/

/-- A table of the store (`virus_md5_hashes`, `high_risk_ips`, ...):
the list of values inserted so far, in insertion order, duplicate-free
by construction of `DB.add`. -/
abbrev DB.Table := List String

/-- `CREATE TABLE` produces an empty table. -/
def DB.emptyTable : DB.Table := []

/-- Model of `DB.add` (antidote.py lines 65-73): `INSERT INTO table VALUES (?)`
appends the value; inserting a value already present violates the UNIQUE
constraint, raising `sqlite3.IntegrityError`, which the method catches and
ignores, leaving the table unchanged. -/
def DB.add (t : DB.Table) (v : String) : DB.Table :=
  if v ∈ t then t else t ++ [v]

/-- Model of `DB.exists` (antidote.py lines 75-78): `SELECT ... WHERE vname = ?`
followed by `fetchone() is not None`, i.e. membership of the value in the
table. (Named `existsVal` because `exists` is a Lean keyword.) -/
def DB.existsVal (t : DB.Table) (v : String) : Bool :=
  decide (v ∈ t)

/-- Model of the ingestion loop (antidote.py lines 103-104 and 150-151):
each value of the batch is inserted with `DB.add`, in order. This is the
source's realisation of the spec's `bulkInsert`. -/
def DB.addAll (t : DB.Table) (vs : List String) : DB.Table :=
  vs.foldl DB.add t

theorem DB.mem_add (t : DB.Table) (v a : String) :
    a ∈ DB.add t v ↔ a ∈ t ∨ a = v := by
  unfold DB.add
  by_cases h : v ∈ t
  · simp only [h, if_true]
    constructor
    · exact Or.inl
    · rintro (ha | rfl)
      · exact ha
      · exact h
  · simp [h]

theorem DB.mem_addAll (t : DB.Table) (vs : List String) (a : String) :
    a ∈ DB.addAll t vs ↔ a ∈ t ∨ a ∈ vs := by
  induction vs generalizing t with
  | nil => simp [DB.addAll]
  | cons v vs ih =>
      show a ∈ DB.addAll (DB.add t v) vs ↔ _
      rw [ih, DB.mem_add]
      constructor
      · rintro ((h | rfl) | h)
        · exact Or.inl h
        · exact Or.inr (List.mem_cons_self _ _)
        · exact Or.inr (List.mem_cons_of_mem _ h)
      · rintro (h | h)
        · exact Or.inl (Or.inl h)
        · rcases List.mem_cons.mp h with rfl | h
          · exact Or.inl (Or.inr rfl)
          · exact Or.inr h

theorem DB.add_of_mem (t : DB.Table) (v : String) (h : v ∈ t) :
    DB.add t v = t := by
  simp [DB.add, h]

theorem DB.addAll_of_subset (t : DB.Table) (vs : List String)
    (h : ∀ v ∈ vs, v ∈ t) : DB.addAll t vs = t := by
  induction vs generalizing t with
  | nil => rfl
  | cons v vs ih =>
      show DB.addAll (DB.add t v) vs = t
      rw [DB.add_of_mem t v (h v (List.mem_cons_self _ _))]
      exact ih t fun w hw => h w (List.mem_cons_of_mem _ hw)

/-- C2: for every value `h` inserted into a table via `add`, a subsequent
`exists` lookup for `h` returns true; and any value not among those inserted
starting from the default-empty table yields false. -/
theorem db_add_exists_correct (t : DB.Table) (h : String)
    (vs : List String) (v : String) (hv : v ∉ vs) :
    DB.existsVal (DB.add t h) h = true ∧
    DB.existsVal (DB.addAll DB.emptyTable vs) v = false := by
  constructor
  · simp [DB.existsVal, DB.mem_add]
  · simp only [DB.existsVal, decide_eq_false_iff_not]
    rw [DB.mem_addAll]
    simp [DB.emptyTable, hv]

/-- Witness for C2 at concrete inputs. -/
theorem db_add_exists_correct_witness :
    DB.existsVal (DB.add ["x"] "h1") "h1" = true ∧
    DB.existsVal (DB.addAll DB.emptyTable ["h1", "h2"]) "zz" = false :=
  db_add_exists_correct ["x"] "h1" ["h1", "h2"] "zz" (by decide)

/-- C4: insertion is idempotent and duplicate-tolerant: inserting a value
already present is a no-op (no error is modelled because the code swallows
the UNIQUE `IntegrityError`), and running the same bulk insert twice yields
the very same table, hence unchanged `exists` results for every query. -/
theorem db_insert_idempotent (t : DB.Table) (v : String)
    (vs : List String) (q : String) (hv : v ∈ t) :
    DB.add t v = t ∧
    DB.addAll (DB.addAll t vs) vs = DB.addAll t vs ∧
    DB.existsVal (DB.addAll (DB.addAll t vs) vs) q
      = DB.existsVal (DB.addAll t vs) q := by
  have hdouble : DB.addAll (DB.addAll t vs) vs = DB.addAll t vs :=
    DB.addAll_of_subset _ _ fun w hw => (DB.mem_addAll t vs w).mpr (Or.inr hw)
  exact ⟨DB.add_of_mem t v hv, hdouble, by rw [hdouble]⟩

/-- Witness for C4 at concrete inputs. -/
theorem db_insert_idempotent_witness :
    DB.add ["a"] "a" = ["a"] ∧
    DB.addAll (DB.addAll ["a"] ["b", "c"]) ["b", "c"]
      = DB.addAll ["a"] ["b", "c"] ∧
    DB.existsVal (DB.addAll (DB.addAll ["a"] ["b", "c"]) ["b", "c"]) "b"
      = DB.existsVal (DB.addAll ["a"] ["b", "c"]) "b" :=
  db_insert_idempotent ["a"] "a" ["b", "c"] "b" (by decide)

/-- Model of the chunk sequence produced by `iter(lambda: f.read(4096), b"")`
in `FileScanner.get_md5` (antidote.py lines 171-180): repeated fixed-size
reads from the remaining content, stopping at the first empty read. When the
content length is an exact chunk multiple, one extra read returns the empty
chunk and the iteration stops. -/
def readChunks (content : List Nat) : List (List Nat) :=
  if h : content = [] then []
  else content.take 4096 :: readChunks (content.drop 4096)
termination_by content.length
decreasing_by
  simp only [List.length_drop]
  have : 0 < content.length := List.length_pos.mpr h
  omega

/-- Model of the `md5_hash.update(chunk)` loop: the byte sequence accumulated
into the MD5 state over all chunks (hashlib's `update` concatenates). -/
def get_md5_input (content : List Nat) : List Nat :=
  (readChunks content).foldl (fun acc chunk => acc ++ chunk) []

/-- Model of `FileScanner.get_md5`: the hex digest is an abstract pure
function `H` (MD5) of the accumulated bytes. -/
def get_md5 (H : List Nat → String) (content : List Nat) : String :=
  H (get_md5_input content)

/-- Written from the spec's words for the refinement claim C3: a naive
whole-file hash feeds the entire content to the digest function in one
update. -/
def naive_whole_file_md5 (H : List Nat → String) (content : List Nat) :
    String :=
  H content

theorem foldl_append_eq_flatten (l : List (List Nat)) (acc : List Nat) :
    l.foldl (fun acc chunk => acc ++ chunk) acc = acc ++ l.flatten := by
  induction l generalizing acc with
  | nil => simp
  | cons c l ih => simp [ih, List.append_assoc]

theorem readChunks_flatten (content : List Nat) :
    (readChunks content).flatten = content := by
  induction content using readChunks.induct with
  | case1 => simp [readChunks]
  | case2 c hne ih =>
      rw [readChunks]
      simp only [hne, dif_neg, not_false_iff, List.flatten_cons]
      rw [ih, List.take_append_drop]

theorem get_md5_input_eq (content : List Nat) :
    get_md5_input content = content := by
  rw [get_md5_input, foldl_append_eq_flatten, List.nil_append,
    readChunks_flatten]

/-- C3: chunked 4096-byte hashing is deterministic (the model is a pure
function of the content, so two runs over the same content agree) and
produces the same digest as a single whole-file hash of the same content —
for every content, including lengths that are exact multiples of the chunk
size. -/
theorem get_md5_chunking_correct (H : List Nat → String)
    (content : List Nat) :
    get_md5 H content = get_md5 H content ∧
    get_md5 H content = naive_whole_file_md5 H content := by
  refine ⟨rfl, ?_⟩
  rw [get_md5, get_md5_input_eq, naive_whole_file_md5]

/-- I/O errors a file access can raise in the scanner pipeline. -/
inductive IOErr where
  | notFound
  | permissionDenied
deriving DecidableEq, Repr

/-- The state of a file at the moment it is opened: readable content, or an
`open` that raises. -/
inductive FileAccess where
  | ok (content : List Nat)
  | err (e : IOErr)
deriving DecidableEq, Repr

/-- Model of the read loop of `is_binary` (antidote.py lines 262-269): read a
1024-byte chunk; if it contains a null byte return `true`; if the chunk is
short (end of file) return `false`; otherwise keep reading the next chunk.
Note the loop continues over the whole file, not only the first chunk. -/
def is_binary_go (content : List Nat) : Bool :=
  if 0 ∈ content.take 1024 then true
  else if (content.take 1024).length < 1024 then false
  else is_binary_go (content.drop 1024)
termination_by content.length
decreasing_by
  rename_i h1 h2
  simp only [List.length_take, not_lt, le_min_iff] at h2
  simp only [List.length_drop]
  omega

/-- Model of `is_binary` (antidote.py lines 256-272): opening the file may
raise; `PermissionError` is caught (logged) and the function falls through to
`return False`; any other error — in particular `FileNotFoundError` when the
file vanished — propagates to the caller. On readable content the chunked
null-byte probe runs. -/
def is_binary (f : FileAccess) : Except IOErr Bool :=
  match f with
  | .err .permissionDenied => .ok false
  | .err .notFound => .error .notFound
  | .ok content => .ok (is_binary_go content)

theorem is_binary_go_eq_contains (content : List Nat) :
    is_binary_go content = decide (0 ∈ content) := by
  induction content using is_binary_go.induct with
  | case1 c hmem =>
      rw [is_binary_go]
      simp only [hmem, if_true]
      have : 0 ∈ c := List.mem_of_mem_take hmem
      simp [this]
  | case2 c hmem hshort =>
      rw [is_binary_go]
      simp only [hmem, if_false, hshort, if_true]
      have hc : c.length < 1024 := by
        simp only [List.length_take, lt_min_iff] at hshort
        omega
      have htake : c.take 1024 = c := List.take_of_length_le (by omega)
      rw [htake] at hmem
      simp [hmem]
  | case3 c hmem hshort ih =>
      rw [is_binary_go]
      simp only [hmem, if_false, hshort, if_false]
      rw [ih]
      have hsplit : c = c.take 1024 ++ c.drop 1024 :=
        (List.take_append_drop 1024 c).symm
      by_cases hd : 0 ∈ c.drop 1024
      · have : 0 ∈ c := by rw [hsplit]; exact List.mem_append_right _ hd
        simp [hd, this]
      · have : 0 ∉ c := by
          rw [hsplit]
          intro hmem2
          rcases List.mem_append.mp hmem2 with h | h
          · exact hmem h
          · exact hd h
        simp [hd, this]

/-- C8 amended: on readable content, `is_binary` loops over the whole file in
1024-byte chunks and returns true exactly when a null byte appears anywhere
in the content (not only within the first 1024 bytes); a permission error on
the probe read yields false (not binary) rather than propagating. -/
theorem is_binary_correct (content : List Nat) :
    is_binary (FileAccess.ok content) = Except.ok (decide (0 ∈ content)) ∧
    is_binary (FileAccess.err IOErr.permissionDenied) = Except.ok false := by
  exact ⟨by rw [is_binary, is_binary_go_eq_contains], rfl⟩

/-- Written from the words of claim C8 ("reads at most 1024 bytes of the file
and returns true exactly when a null byte appears within those bytes"): the
probe would look for a null byte only in the first 1024 bytes. -/
def spec_is_binary_probe (content : List Nat) : Bool :=
  decide (0 ∈ content.take 1024)

/-- Counterexample to C8 as stated: a file of 1025 bytes whose only null byte
is at index 1024 — past the first 1024 bytes the claim says are the only ones
read. The code reads a second chunk and returns true, while the claimed
behaviour would return false. -/
theorem is_binary_claim_counterexample :
    is_binary (FileAccess.ok (List.replicate 1024 1 ++ [0]))
      = Except.ok true ∧
    spec_is_binary_probe (List.replicate 1024 1 ++ [0]) = false := by
  constructor
  · rw [is_binary, is_binary_go_eq_contains]
    have hmem : (0 : Nat) ∈ List.replicate 1024 1 ++ [0] :=
      List.mem_append_right _ (List.mem_singleton.mpr rfl)
    rw [decide_eq_true hmem]
  · rw [spec_is_binary_probe]
    have hlen : (1024 : Nat) ≤ (List.replicate 1024 (1 : Nat)).length := by
      rw [List.length_replicate]
    rw [List.take_append_of_le_length hlen]
    simp only [List.take_replicate, min_self, decide_eq_false_iff_not,
      List.mem_replicate]
    omega

/-- Model of `FileScanner.compare_against_database` (antidote.py lines
182-187): run `is_binary` on the file (any exception it raises propagates);
if binary, hash the contents with `get_md5` (reopening the file — an error
there also propagates) and append the path to the bad-files list when the
digest is in the `virus_md5_hashes` table. `db` is that table, `badFiles` the
scanner's `_bad_files` list, `H` the MD5 hex-digest function. -/
def compare_against_database (db : DB.Table) (badFiles : List String)
    (fp : String) (f : FileAccess) (H : List Nat → String) :
    Except IOErr (List String) :=
  match is_binary f with
  | .error e => .error e
  | .ok false => .ok badFiles
  | .ok true =>
      match f with
      | .err e => .error e
      | .ok content =>
          .ok (if DB.existsVal db (get_md5 H content)
               then badFiles ++ [fp] else badFiles)

/-- C5 amended: a permission error during the probe read is caught inside
`is_binary` (logged) and the target is skipped with no effect on the
bad-files list; but a file that vanished between enumeration and open
(`FileNotFoundError`) is NOT caught — it propagates out of
`compare_against_database`, killing the worker thread it runs on (the main
scan loop itself continues, as thread exceptions do not reach it). -/
theorem compare_against_database_error_policy (db : DB.Table)
    (badFiles : List String) (fp : String) (H : List Nat → String) :
    compare_against_database db badFiles fp
        (FileAccess.err IOErr.permissionDenied) H = Except.ok badFiles ∧
    compare_against_database db badFiles fp
        (FileAccess.err IOErr.notFound) H = Except.error IOErr.notFound :=
  ⟨rfl, rfl⟩

/-- Counterexample to C5 as stated: for a file that vanished between
enumeration and open, `compare_against_database` propagates the `NotFound`
error instead of logging and skipping the target. -/
theorem compare_against_database_claim_counterexample :
    compare_against_database DB.emptyTable [] "/tmp/gone"
        (FileAccess.err IOErr.notFound) (fun _ => "")
      = Except.error IOErr.notFound :=
  rfl

/-- Whether the per-file pipeline actually hashes the file: `get_md5` runs
exactly when `is_binary` returned true (antidote.py lines 183-185). -/
def didHash (f : FileAccess) : Bool :=
  match is_binary f with
  | .ok true => true
  | _ => false

/-- One iteration of the dispatch loop of `FileScanner.scan` (antidote.py
lines 194-202) combined with the worker it spawns: the scanned-files counter
`count` is incremented for every dispatched file, before and regardless of
the binary classification, which happens inside the worker; the accumulator
is `(count, hashedCount, badFiles)`. A worker that dies on a propagated
exception leaves the bad-files list unchanged. -/
def scanStep (db : DB.Table) (H : List Nat → String)
    (acc : Nat × Nat × List String) (file : String × FileAccess) :
    Nat × Nat × List String :=
  (acc.1 + 1,
   acc.2.1 + (if didHash file.2 then 1 else 0),
   match compare_against_database db acc.2.2 file.1 file.2 H with
   | .ok bad => bad
   | .error _ => acc.2.2)

/-- Sequential model of `FileScanner.scan`'s effect over the enumerated
files: final `(count, hashedCount, badFiles)`. -/
def scanModel (db : DB.Table) (H : List Nat → String)
    (files : List (String × FileAccess)) : Nat × Nat × List String :=
  files.foldl (scanStep db H) (0, 0, [])

theorem scanModel_aux_text (db : DB.Table) (H : List Nat → String)
    (files : List (String × FileAccess))
    (htext : ∀ f ∈ files, is_binary f.2 = Except.ok false) (n : Nat) :
    files.foldl (scanStep db H) (n, 0, []) = (n + files.length, 0, []) := by
  induction files generalizing n with
  | nil => simp
  | cons f fs ih =>
      have hf : is_binary f.2 = Except.ok false :=
        htext f (List.mem_cons_self _ _)
      have hstep : scanStep db H (n, 0, []) f = (n + 1, 0, []) := by
        rw [scanStep]
        simp [didHash, compare_against_database, hf]
      rw [List.foldl_cons, hstep,
        ih (fun g hg => htext g (List.mem_cons_of_mem _ hg)) (n + 1)]
      have harith : n + 1 + fs.length = n + (f :: fs).length := by
        simp only [List.length_cons]
        omega
      rw [harith]

/-- C9 amended: scanning files that are all classified non-binary, against
an empty store, hashes zero files and reports zero infected files — but the
reported files-scanned `count` is the number of ALL dispatched files,
including the skipped non-binary ones (the counter is incremented at
dispatch, before classification), not only binary candidates actually
hashed. -/
theorem scan_count_text_files (db : DB.Table) (H : List Nat → String)
    (files : List (String × FileAccess))
    (htext : ∀ f ∈ files, is_binary f.2 = Except.ok false) :
    scanModel db H files = (files.length, 0, []) := by
  rw [scanModel, scanModel_aux_text db H files htext 0, Nat.zero_add]

/-- Witness for the amended C9 at three concrete text files. -/
theorem scan_count_text_files_witness :
    scanModel DB.emptyTable (fun _ => "d")
        [("a.txt", FileAccess.ok [65]), ("b.txt", FileAccess.ok [66]),
         ("c.txt", FileAccess.ok [67])]
      = (3, 0, []) :=
  scan_count_text_files DB.emptyTable (fun _ => "d") _
    (by
      intro f hf
      fin_cases hf <;> simp [is_binary, is_binary_go_eq_contains])

/-- Counterexample to C9 as stated: three regular text files (no null
bytes), empty store. Zero files are hashed and zero infected — but the
files-scanned count is 3, not 0: it does not exclude the skipped non-binary
files. -/
theorem scan_count_claim_counterexample :
    is_binary (FileAccess.ok [65]) = Except.ok false ∧
    is_binary (FileAccess.ok [66]) = Except.ok false ∧
    is_binary (FileAccess.ok [67]) = Except.ok false ∧
    scanModel DB.emptyTable (fun _ => "d")
        [("a.txt", FileAccess.ok [65]), ("b.txt", FileAccess.ok [66]),
         ("c.txt", FileAccess.ok [67])]
      = (3, 0, []) ∧
    (3 : Nat) ≠ 0 := by
  refine ⟨?_, ?_, ?_, ?_, by decide⟩ <;>
    simp [is_binary, is_binary_go_eq_contains, scanModel, scanStep,
      compare_against_database, didHash, DB.existsVal, DB.emptyTable,
      List.foldl]

/-- Model of the admission gate of `FileScanner.scan` (antidote.py line 195):
`threading.active_count() < max_threads`. -/
def admissionOk (activeCount maxThreads : Nat) : Bool :=
  decide (activeCount < maxThreads)

/-- Reachable worker counts during a scan: `Reach base m w` holds when, with
`base` non-worker threads alive (the calling thread and any other threads
counted by `threading.active_count()`; at least the calling thread, so
`1 ≤ base` in any real run) and bound `m = max_threads`, a point of the scan
can have `w` worker threads concurrently running
`compare_against_database`. The scan starts with no workers; the only
spawner is the scan loop, which spawns one worker only after observing
`admissionOk (base + w) m`; a worker may finish at any time. -/
inductive Reach (base m : Nat) : Nat → Prop where
  | init : Reach base m 0
  | spawn {w : Nat} : Reach base m w → admissionOk (base + w) m = true →
      Reach base m (w + 1)
  | finish {w : Nat} : Reach base m (w + 1) → Reach base m w

/-- C1: at no point during a scan does the number of concurrently active
per-file pipelines (threads running `compare_against_database`) exceed the
configured bound `max_threads`: every reachable worker count `w` satisfies
`w ≤ m`. -/
theorem scan_thread_bound (base m w : Nat) (hbase : 1 ≤ base)
    (hr : Reach base m w) : w ≤ m := by
  induction hr with
  | init => exact Nat.zero_le m
  | spawn _ hadm ih =>
      have : _ + _ < m := of_decide_eq_true hadm
      omega
  | finish _ ih => omega

/-- Witness for C1: with one non-worker thread and bound 10, one worker is
reachable (the gate admits it) and is within the bound. -/
theorem scan_thread_bound_witness :
    admissionOk (1 + 0) 10 = true ∧ (1 : Nat) ≤ 10 :=
  ⟨by decide,
   scan_thread_bound 1 10 1 (by decide) (Reach.spawn Reach.init (by decide))⟩

/-- Outcome of running the dispatch loop of `FileScanner.scan` for a finite
number of iterations: either `StopIteration` was raised by an exhausted
enumerator and the scan finished printing `count`, or the loop is still
running with `count` files dispatched so far. There is no error outcome:
`scan` performs no validation of `max_threads`. -/
inductive ScanOutcome where
  | finished (count : Nat)
  | running (count : Nat)
deriving DecidableEq, Repr

/-- Model of the dispatch loop of `FileScanner.scan` (antidote.py lines
193-203), one iteration per unit of `fuel`: each iteration first lets the
workers scheduled to finish at this point exit (`sched` gives how many per
iteration; `w` is the current worker count, `active_count = 1 + w` counting
the calling thread), then either dispatches the next file — `next(fp_gen)`
raising `StopIteration` on exhaustion — when the admission gate is open, or
sleeps 0.01 s. -/
def scanLoop (m : Nat) (files : List String) (count w : Nat)
    (sched : List Nat) : Nat → ScanOutcome
  | 0 => ScanOutcome.running count
  | fuel + 1 =>
      if admissionOk (1 + (w - sched.headD 0)) m then
        match files with
        | [] => ScanOutcome.finished count
        | _ :: fs =>
            scanLoop m fs (count + 1) (w - sched.headD 0 + 1) sched.tail fuel
      else
        scanLoop m files count (w - sched.headD 0) sched.tail fuel

/-- C10: with `max_threads ≤ 1` the admission condition
`threading.active_count() < max_threads` is never satisfied (the calling
thread alone makes `active_count` at least 1), so however long the loop runs
and whatever the worker schedule, no file is ever dispatched, `next` is
never called, `StopIteration` is never reached and the scan never finishes —
and no configuration error is raised (`ScanOutcome` has no error case
because `scan` validates nothing). -/
theorem scan_low_bound_never_dispatches (m : Nat) (hm : m ≤ 1) (w : Nat)
    (files : List String) (sched : List Nat) (fuel : Nat) :
    admissionOk (1 + w) m = false ∧
    scanLoop m files 0 w sched fuel = ScanOutcome.running 0 := by
  have hadm : ∀ v : Nat, admissionOk (1 + v) m = false := by
    intro v
    simp only [admissionOk, decide_eq_false_iff_not, not_lt]
    omega
  refine ⟨hadm w, ?_⟩
  induction fuel generalizing files w sched with
  | zero => rfl
  | succ fuel ih =>
      simp only [scanLoop, hadm, Bool.false_eq_true, if_false]
      exact ih _ _ _

/-- Witness for C10 at `max_threads = 1`, two enumerated files, five loop
iterations. -/
theorem scan_low_bound_never_dispatches_witness :
    admissionOk (1 + 0) 1 = false ∧
    scanLoop 1 ["a", "b"] 0 0 [] 5 = ScanOutcome.running 0 :=
  scan_low_bound_never_dispatches 1 (by decide) 0 ["a", "b"] [] 5

/-- Model of the connection-status condition of `NetworkScanner.scan`
(antidote.py line 225): `conn.status != "NONE" or conn.status !=
"CLOSE_WAIT"`. -/
def statusFilter (status : String) : Bool :=
  (status != "NONE") || (status != "CLOSE_WAIT")

/-- C7: the condition is a tautology — for every possible status string it
evaluates to true (a status cannot equal both `"NONE"` and `"CLOSE_WAIT"`),
so no connection is ever excluded by it. -/
theorem status_filter_always_true (status : String) :
    statusFilter status = true := by
  by_cases h : status = "NONE"
  · subst h
    decide
  · simp [statusFilter, h]

/-- The alert body built by `NetworkScanner.notify` (antidote.py line 233):
`f"{psutil.Process(pid).name()}\n{ip}:{port} - {pid}"`. `procName` stands for
the OS process-name lookup. -/
def mkBody (procName : Nat → String) (ip : String) (port pid : Nat) :
    String :=
  procName pid ++ "\n" ++ ip ++ ":" ++ toString port ++ " - " ++ toString pid

/-- Model of `NetworkScanner.notify` (antidote.py lines 232-240): if the body
is not in the session's `_displayed_notifications` list, the alert is
delivered (toast or print) and the body recorded; otherwise nothing is
delivered. Returns the new list and the delivered alert body, if any. -/
def notify (procName : Nat → String) (displayed : List String)
    (ip : String) (port pid : Nat) : List String × Option String :=
  let body := mkBody procName ip port pid
  if body ∈ displayed then (displayed, none)
  else (displayed ++ [body], some body)

/-- The sequence of alert bodies actually delivered over a sequence of
`notify` calls (one call per matching connection per tick of
`NetworkScanner.scan`), starting from the given
`_displayed_notifications` list. -/
def notifyRun (procName : Nat → String) (displayed : List String) :
    List (String × Nat × Nat) → List String
  | [] => []
  | c :: rest =>
      match notify procName displayed c.1 c.2.1 c.2.2 with
      | (displayed2, none) => notifyRun procName displayed2 rest
      | (displayed2, some b) => b :: notifyRun procName displayed2 rest

theorem notify_of_mem (procName : Nat → String) (displayed : List String)
    (ip : String) (port pid : Nat)
    (h : mkBody procName ip port pid ∈ displayed) :
    notify procName displayed ip port pid = (displayed, none) := by
  simp [notify, h]

theorem notifyRun_not_mem_of_mem (procName : Nat → String)
    (calls : List (String × Nat × Nat)) (displayed : List String)
    (b : String) (hb : b ∈ displayed) :
    b ∉ notifyRun procName displayed calls := by
  induction calls generalizing displayed with
  | nil => simp [notifyRun]
  | cons c rest ih =>
      rw [notifyRun]
      by_cases h : mkBody procName c.1 c.2.1 c.2.2 ∈ displayed
      · rw [notify_of_mem _ _ _ _ _ h]
        exact ih displayed hb
      · simp only [notify, h, if_false]
        intro hmem
        rcases List.mem_cons.mp hmem with rfl | hmem2
        · exact h hb
        · exact ih (displayed ++ [mkBody procName c.1 c.2.1 c.2.2])
            (List.mem_append_left _ hb) hmem2

theorem notifyRun_nodup (procName : Nat → String)
    (calls : List (String × Nat × Nat)) (displayed : List String) :
    (notifyRun procName displayed calls).Nodup := by
  induction calls generalizing displayed with
  | nil => simp [notifyRun]
  | cons c rest ih =>
      rw [notifyRun]
      by_cases h : mkBody procName c.1 c.2.1 c.2.2 ∈ displayed
      · rw [notify_of_mem _ _ _ _ _ h]
        exact ih displayed
      · simp only [notify, h, if_false]
        refine List.nodup_cons.mpr ⟨?_, ih _⟩
        exact notifyRun_not_mem_of_mem procName rest _ _
          (List.mem_append_right _ (List.mem_singleton.mpr rfl))

theorem notifyRun_replicate_of_mem (procName : Nat → String)
    (ip : String) (port pid : Nat) (k : Nat) (displayed : List String)
    (h : mkBody procName ip port pid ∈ displayed) :
    notifyRun procName displayed (List.replicate k (ip, port, pid)) = [] := by
  induction k with
  | zero => rfl
  | succ k ih =>
      rw [List.replicate_succ, notifyRun, notify_of_mem _ _ _ _ _ h]
      exact ih

/-- C6: alert delivery is de-duplicated by body content for the process
lifetime: over every sequence of `notify` calls starting from a fresh
session, each distinct body is delivered at most once (the delivered bodies
contain no duplicate); and a connection matching a high-risk IP that
persists across `n ≥ 1` consecutive ticks produces exactly one delivered
alert — the one with its `(ip, port, pid)` body. -/
theorem notify_dedup (procName : Nat → String)
    (calls : List (String × Nat × Nat)) (b : String)
    (ip : String) (port pid : Nat) (n : Nat) (hn : 1 ≤ n) :
    (notifyRun procName [] calls).count b ≤ 1 ∧
    notifyRun procName [] (List.replicate n (ip, port, pid))
      = [mkBody procName ip port pid] := by
  constructor
  · exact List.nodup_iff_count_le_one.mp (notifyRun_nodup procName calls []) b
  · obtain ⟨k, rfl⟩ : ∃ k, n = k + 1 := ⟨n - 1, by omega⟩
    rw [List.replicate_succ, notifyRun]
    have hnot : mkBody procName ip port pid ∉ ([] : List String) :=
      List.not_mem_nil _
    simp only [notify, hnot, if_false, List.nil_append]
    rw [notifyRun_replicate_of_mem procName ip port pid k _
      (List.mem_singleton.mpr rfl)]

/-- Witness for C6: a connection persisting across 5 ticks delivers exactly
one alert. -/
theorem notify_dedup_witness :
    (notifyRun (fun _ => "sshd") []
        [("1.2.3.4", 22, 7), ("1.2.3.4", 22, 7)]).count "x" ≤ 1 ∧
    notifyRun (fun _ => "sshd") []
        (List.replicate 5 ("1.2.3.4", 22, 7))
      = [mkBody (fun _ => "sshd") "1.2.3.4" 22 7] :=
  notify_dedup (fun _ => "sshd") [("1.2.3.4", 22, 7), ("1.2.3.4", 22, 7)]
    "x" "1.2.3.4" 22 7 5 (by decide)
